import Mathlib

/-!
Verification development for the certificate manager core of pkitool
(pkg/certmgr/certmgr.go together with its validation rule chain).
The Go functions are shallowly embedded: the filesystem is an explicit
association list from paths to files, PEM/DER content is kept symbolic
(a file either holds no decodable block, or a block with a type label
and a payload that is a certificate, a private key, or malformed bytes),
and the random key generation of rsa.GenerateKey is an oracle argument.
-/

/-- Distinguished name record, after crypto/x509/pkix.Name as populated by
this tool (country, organization, organizational unit, locality, province,
street address, postal code, serial number, common name). -/
structure PkixName where
  country : List String
  organization : List String
  organizationalUnit : List String
  locality : List String
  province : List String
  streetAddress : List String
  postalCode : List String
  serialNumber : String
  commonName : String
deriving DecidableEq

/-- Attribute segments of a name in pkix.Name.ToRDNSequence order; one
segment per attribute value.  A present attribute with empty value still
yields a segment, exactly as in the Go standard library. -/
def PkixName.segments (n : PkixName) : List String :=
  (n.country.map (fun v => ("C=") ++ v)) ++
  (n.organization.map (fun v => ("O=") ++ v)) ++
  (n.organizationalUnit.map (fun v => ("OU=") ++ v)) ++
  (n.locality.map (fun v => ("L=") ++ v)) ++
  (n.province.map (fun v => ("ST=") ++ v)) ++
  (n.streetAddress.map (fun v => ("STREET=") ++ v)) ++
  (n.postalCode.map (fun v => ("POSTALCODE=") ++ v)) ++
  (if n.serialNumber = ("") then [] else [("SERIALNUMBER=") ++ n.serialNumber]) ++
  (if n.commonName = ("") then [] else [("CN=") ++ n.commonName])

/-- Model of pkix.Name.String(): the relative distinguished names printed in
reverse order, joined by commas.  (The standard library joins multi-valued
sets with a plus sign; only the rendered string and in particular its
emptiness matter to the tool, which tests len(Subject.String()) == 0.) -/
def PkixName.render (n : PkixName) : String :=
  String.intercalate (",") n.segments.reverse

/-- The all-empty distinguished name (Go zero value of pkix.Name). -/
def emptyName : PkixName :=
  ⟨[], [], [], [], [], [], [], "", ""⟩

/-- x509.KeyUsageDigitalSignature. -/
def KeyUsageDigitalSignature : Nat := 1
/-- x509.KeyUsageContentCommitment. -/
def KeyUsageContentCommitment : Nat := 2
/-- x509.KeyUsageKeyEncipherment. -/
def KeyUsageKeyEncipherment : Nat := 4
/-- x509.KeyUsageDataEncipherment. -/
def KeyUsageDataEncipherment : Nat := 8
/-- x509.KeyUsageKeyAgreement. -/
def KeyUsageKeyAgreement : Nat := 16
/-- x509.KeyUsageCertSign. -/
def KeyUsageCertSign : Nat := 32
/-- x509.KeyUsageCRLSign. -/
def KeyUsageCRLSign : Nat := 64

/-- Extended key usage values used by the tool (x509.ExtKeyUsageClientAuth,
x509.ExtKeyUsageServerAuth). -/
inductive ExtKeyUsage where
  | clientAuth
  | serverAuth
deriving DecidableEq

/-- Abstract RSA private key: the output of rsa.GenerateKey, identified by
its modulus size and an abstract seed standing for the random draw. -/
structure RsaPrivateKey where
  size : Nat
  seed : Nat
deriving DecidableEq

/-- The x509.Certificate fields this tool reads or writes.  Time is kept
abstract: notBefore stands for time.Now() at issuance and notAfter for
AddDate(validYears, 0, 0), counted in years. -/
structure Certificate where
  subject : PkixName
  issuer : PkixName
  notBefore : Int
  notAfter : Int
  isCA : Bool
  keyUsage : Nat
  basicConstraintsValid : Bool
  extKeyUsage : List ExtKeyUsage
  dnsNames : List String
  ipAddresses : List String
  serialNumber : Int
deriving DecidableEq

/-- PairHolder wraps both certificate and corresponding private key. -/
structure PairHolder where
  Cert : Certificate
  Key : RsaPrivateKey
deriving DecidableEq

/-- CertData: the request descriptor consumed by the issuance engine.
IP addresses are kept as strings. -/
structure CertData where
  KeySize : Nat
  ValidYears : Int
  IPSan : List String
  DNSSan : List String
  Alias : String
  ParentAlias : String
  SelfSigned : Bool
  IsCA : Bool
  Issuer : PkixName
  Subject : PkixName
  Serial : Int
deriving DecidableEq

/-- Errors surfaced by the certificate manager and its validation chain.
The missing-field values mirror package common (ErrAliasMissing,
ErrSubjectMissing, ErrParentAliasMissing); fileNotFound stands for the
not-found error propagated verbatim from os.ReadFile; formatError for the
fmt.Errorf raised on a bad or missing PEM block; parseCertError and
parseKeyError for the errors of x509.ParseCertificate and
x509.ParsePKCS1PrivateKey. -/
inductive CmError where
  | aliasMissing
  | subjectMissing
  | parentAliasMissing
  | invalidValidYears (got atLeast : Int)
  | fileNotFound (path : String)
  | formatError (msg : String)
  | parseCertError
  | parseKeyError
deriving DecidableEq

/-- DER payload of a decoded PEM block: a certificate, a PKCS#1 private
key, or bytes neither parser accepts. -/
inductive DerContent where
  | certDer (c : Certificate)
  | keyDer (k : RsaPrivateKey)
  | malformed
deriving DecidableEq

/-- Content of a stored file as seen through pem.Decode: either no
decodable block, or one block with its type label and DER payload. -/
inductive FileData where
  | noPemBlock
  | pemBlock (btype : String) (der : DerContent)
deriving DecidableEq

/-- A file on disk: its decoded content and its permission bits. -/
structure FsFile where
  data : FileData
  perm : Nat
deriving DecidableEq

/-- The storage directory state.  files maps paths to files; unremovable
lists paths whose os.Remove fails with an error other than not-found
(e.g. permission denied); statBroken lists paths whose os.Stat fails with
an error other than not-found. -/
structure Fs where
  files : List (String × FsFile)
  unremovable : List String
  statBroken : List String
deriving DecidableEq

/-- Lookup of a path in the file table (first match). -/
def findIn : List (String × FsFile) → String → Option FsFile
  | [], _ => none
  | e :: rest, p => if e.1 = p then some e.2 else findIn rest p

/-- Removal of a path from the file table. -/
def removePath : List (String × FsFile) → String → List (String × FsFile)
  | [], _ => []
  | e :: rest, p => if e.1 = p then removePath rest p else e :: removePath rest p

/-- Lookup a file by path in the directory state. -/
def Fs.findFile (fs : Fs) (p : String) : Option FsFile :=
  findIn fs.files p

/-- Error classes of os.Remove that the tool distinguishes via
os.IsNotExist. -/
inductive RemoveErr where
  | notExist
  | permission
deriving DecidableEq

/-- os.Remove: fails with a non-not-found error on an unremovable path,
with not-found on an absent path, and otherwise deletes the file. -/
def osRemove (fs : Fs) (p : String) : Option RemoveErr × Fs :=
  if p ∈ fs.unremovable then (some RemoveErr.permission, fs)
  else
    match findIn fs.files p with
    | none => (some RemoveErr.notExist, fs)
    | some _ => (none, { fs with files := removePath fs.files p })

/-- Error classes of os.Stat that the tool distinguishes via
os.IsNotExist. -/
inductive StatErr where
  | notExist
  | permission
deriving DecidableEq

/-- os.Stat, reduced to its error outcome: none means the stat succeeded. -/
def osStat (fs : Fs) (p : String) : Option StatErr :=
  if p ∈ fs.statBroken then some StatErr.permission
  else
    match findIn fs.files p with
    | some _ => none
    | none => some StatErr.notExist

/-- os.IsNotExist on a stat error. -/
def osIsNotExistStat : StatErr → Bool
  | StatErr.notExist => true
  | StatErr.permission => false

/-- os.ReadFile: returns the file content, or propagates the not-found
error for the requested path. -/
def osReadFile (fs : Fs) (p : String) : Except CmError FileData :=
  match findIn fs.files p with
  | some f => Except.ok f.data
  | none => Except.error (CmError.fileNotFound p)

/-- os.WriteFile: creates or truncates the file at the path with the given
content and permission bits. -/
def osWriteFile (fs : Fs) (p : String) (d : FileData) (perm : Nat) : Fs :=
  { fs with files := (p, ⟨d, perm⟩) :: removePath fs.files p }

/-- pem.Decode on a file body: the first block with its type, if any. -/
def pemDecode : FileData → Option (String × DerContent)
  | FileData.noPemBlock => none
  | FileData.pemBlock t d => some (t, d)

/-- Block type label for certificates (constant typeCert). -/
def typeCert : String := "CERTIFICATE"

/-- Block type label for private keys (constant typeRsaPrivateKey). -/
def typeRsaPrivateKey : String := "RSA PRIVATE KEY"

/-- x509.ParseCertificate: succeeds exactly on certificate DER bytes. -/
def x509ParseCertificate : DerContent → Except CmError Certificate
  | DerContent.certDer c => Except.ok c
  | _ => Except.error CmError.parseCertError

/-- x509.ParsePKCS1PrivateKey: succeeds exactly on PKCS#1 key DER bytes. -/
def x509ParsePKCS1PrivateKey : DerContent → Except CmError RsaPrivateKey
  | DerContent.keyDer k => Except.ok k
  | _ => Except.error CmError.parseKeyError

/-- aliasToFile: path of the certificate (.pem) or private-key (.key) file
for an alias, Sprintf("%s/%s.%s", dir, alias, suffix). -/
def aliasToFile (dir anAlias : String) (priv : Bool) : String :=
  let suffix := if priv then ("key") else ("pem")
  dir ++ ("/") ++ anAlias ++ (".") ++ suffix

/-- doesAliasFileExist checks if given alias resolves into existing file:
on a stat error it returns the negation of os.IsNotExist, otherwise
true. -/
def doesAliasFileExist (dir : String) (fs : Fs) (anAlias : String) (priv : Bool) : Bool :=
  match osStat fs (aliasToFile dir anAlias priv) with
  | some err => !(osIsNotExistStat err)
  | none => true

/-- isAliasFilename checks if provided filename is valid file for alias:
either a private key file (.key) or a certificate file (.pem). -/
def isAliasFilename (file : String) : Bool :=
  (file.endsWith (".pem")) || (file.endsWith (".key"))

/-- fileToAlias extracts the alias from a filename by dropping the
four-character suffix, file[0 : len(file)-4]. -/
def fileToAlias (file : String) : String :=
  file.take (file.length - 4)

/-- Go err != nil && !os.IsNotExist(err), the condition under which Delete
propagates a removal error. -/
def fatalRemove : Option RemoveErr → Bool
  | some RemoveErr.permission => true
  | _ => false

/-- Delete removes both the private-key and the certificate file of the
alias, tolerating not-found on either removal and propagating any other
removal error immediately.  The returned state is the directory after the
removals that happened. -/
def Delete (dir : String) (fs : Fs) (anAlias : String) : Option RemoveErr × Fs :=
  let r1 := osRemove fs (aliasToFile dir anAlias true)
  if fatalRemove r1.1 then r1
  else
    let r2 := osRemove r1.2 (aliasToFile dir anAlias false)
    if fatalRemove r2.1 then r2
    else (none, r2.2)

/-- lo.Uniq: first-occurrence deduplication of a list. -/
def loUniq (l : List String) : List String :=
  l.foldl (fun acc x => if x ∈ acc then acc else acc ++ [x]) []

/-- The List method of certMgr: filter the directory entries that are
alias files, map them to their alias, and deduplicate. -/
def certList (entries : List String) : List String :=
  loUniq ((entries.filter isAliasFilename).map fileToAlias)

/-- load loads both certificate and private key for given alias.  A read
failure is propagated verbatim; a missing block or a block whose type
label is wrong yields the formatError of the corresponding fmt.Errorf
(the Go message uses a contraction, transliterated here); parse failures
come from the x509 parsers. -/
def load (dir : String) (fs : Fs) (anAlias : String) : Except CmError PairHolder :=
  let name := dir ++ ("/") ++ anAlias ++ (".pem")
  match osReadFile fs name with
  | Except.error e => Except.error e
  | Except.ok data =>
    match pemDecode data with
    | none => Except.error (CmError.formatError (("cannot load CA certificate from ") ++ name))
    | some block =>
      if block.1 ≠ typeCert then
        Except.error (CmError.formatError (("cannot load CA certificate from ") ++ name))
      else
        match x509ParseCertificate block.2 with
        | Except.error e => Except.error e
        | Except.ok cert =>
          let name2 := dir ++ ("/") ++ anAlias ++ (".key")
          match osReadFile fs name2 with
          | Except.error e => Except.error e
          | Except.ok data2 =>
            match pemDecode data2 with
            | none => Except.error (CmError.formatError (("cannot load CA private key from ") ++ name2))
            | some block2 =>
              if block2.1 ≠ typeRsaPrivateKey then
                Except.error (CmError.formatError (("cannot load CA private key from ") ++ name2))
              else
                match x509ParsePKCS1PrivateKey block2.2 with
                | Except.error e => Except.error e
                | Except.ok pKey => Except.ok ⟨cert, pKey⟩

/-- Get gets both certificate and private key for given alias. -/
def Get (dir : String) (fs : Fs) (anAlias : String) : Except CmError PairHolder :=
  load dir fs anAlias

/-- save: PEM-encode the certificate and key DER payloads under their type
labels and write them to the alias-derived paths, the certificate file
with permission 0o640 and the private-key file with permission 0o400. -/
def save (dir : String) (fs : Fs) (cert : DerContent) (key : DerContent) (anAlias : String) : Fs :=
  let fs1 := osWriteFile fs (aliasToFile dir anAlias false) (FileData.pemBlock typeCert cert) 0o640
  osWriteFile fs1 (aliasToFile dir anAlias true) (FileData.pemBlock typeRsaPrivateKey key) 0o400

/-- getKeyUsage: fixed key-usage policy by certificate kind. -/
def getKeyUsage (cd : CertData) : Nat :=
  if cd.IsCA then KeyUsageCertSign ||| KeyUsageCRLSign
  else KeyUsageDataEncipherment ||| KeyUsageDigitalSignature

/-- x509.CreateCertificate, abstracted: the encoded certificate carries
the template fields except the issuer, which the Go standard library
ignores on the template and takes from the subject of the parent
certificate (for a self-signed call the parent is the template itself);
the signature bytes produced with the signer key are not modeled. -/
def x509CreateCertificate (template parent : Certificate) (_pub _priv : RsaPrivateKey) : Certificate :=
  { template with issuer := parent.subject }

/-- create creates new certificate based on input data.  now stands for
time.Now(); newKey is the oracle output of rsa.GenerateKey for this call.
The successive lets mirror the field assignments of the Go function. -/
def create (dir : String) (fs : Fs) (now : Int) (newKey : RsaPrivateKey) (cd : CertData) :
    Except CmError Unit × Fs :=
  let newCert : Certificate :=
    { subject := cd.Subject
      issuer := emptyName
      notBefore := now
      notAfter := now + cd.ValidYears
      isCA := cd.IsCA
      keyUsage := getKeyUsage cd
      basicConstraintsValid := true
      extKeyUsage := []
      dnsNames := []
      ipAddresses := []
      serialNumber := 0 }
  let chE : Except CmError (Option PairHolder) :=
    if !cd.SelfSigned then (load dir fs cd.ParentAlias).map (fun ph => some ph)
    else Except.ok none
  match chE with
  | Except.error e => (Except.error e, fs)
  | Except.ok och =>
    let newCert :=
      match och with
      | some ch => { newCert with issuer := ch.Cert.subject }
      | none => { newCert with issuer := cd.Issuer }
    let newCert := { newCert with serialNumber := if cd.Serial ≠ 0 then cd.Serial else 0 }
    let newCert :=
      if !cd.IsCA then
        { newCert with
            extKeyUsage := [ExtKeyUsage.clientAuth, ExtKeyUsage.serverAuth]
            dnsNames := cd.DNSSan
            ipAddresses := cd.IPSan }
      else newCert
    let signer : Certificate × RsaPrivateKey :=
      if cd.SelfSigned then (newCert, newKey)
      else
        match och with
        | some ch => (ch.Cert, ch.Key)
        | none => (newCert, newKey)
    let certBytes := x509CreateCertificate newCert signer.1 newKey signer.2
    (Except.ok (), save dir fs (DerContent.certDer certBytes) (DerContent.keyDer newKey) cd.Alias)

/-- A validation rule over the request descriptor (checkFunc). -/
abbrev CheckFunc := CertData → Option CmError

/-- requireAlias makes sure that alias is set. -/
def requireAlias : CheckFunc := fun data =>
  if data.Alias.length = 0 then some CmError.aliasMissing else none

/-- requireSubject makes sure that the subject renders to a non-empty
distinguished-name string. -/
def requireSubject : CheckFunc := fun data =>
  if (PkixName.render data.Subject).length = 0 then some CmError.subjectMissing else none

/-- requireParentAlias makes sure that parent alias is set. -/
def requireParentAlias : CheckFunc := fun data =>
  if data.ParentAlias.length = 0 then some CmError.parentAliasMissing else none

/-- validAtLeastYears: the validity in years must reach the floor. -/
def validAtLeastYears (years : Int) : CheckFunc := fun data =>
  if data.ValidYears < years then some (CmError.invalidValidYears data.ValidYears years) else none

/-- check runs the rules in order and returns the first failure. -/
def check (data : CertData) : List CheckFunc → Option CmError
  | [] => none
  | c :: rest =>
    match c data with
    | some e => some e
    | none => check data rest

/-- NewRootCA: validate, force SelfSigned and IsCA, then create. -/
def NewRootCA (dir : String) (fs : Fs) (now : Int) (newKey : RsaPrivateKey) (cd : CertData) :
    Except CmError Unit × Fs :=
  match check cd [requireSubject, requireAlias, validAtLeastYears 1] with
  | some e => (Except.error e, fs)
  | none => create dir fs now newKey { cd with SelfSigned := true, IsCA := true }

/-- NewIntermediateCA: validate (including the parent alias), force
chained signing of a CA, then create. -/
def NewIntermediateCA (dir : String) (fs : Fs) (now : Int) (newKey : RsaPrivateKey) (cd : CertData) :
    Except CmError Unit × Fs :=
  match check cd [requireSubject, requireAlias, requireParentAlias, validAtLeastYears 1] with
  | some e => (Except.error e, fs)
  | none => create dir fs now newKey { cd with SelfSigned := false, IsCA := true }

/-- NewLeaf creates new leaf certificate and private key. -/
def NewLeaf (dir : String) (fs : Fs) (now : Int) (newKey : RsaPrivateKey) (cd : CertData) :
    Except CmError Unit × Fs :=
  match check cd [requireSubject, requireAlias, requireParentAlias, validAtLeastYears 1] with
  | some e => (Except.error e, fs)
  | none => create dir fs now newKey { cd with SelfSigned := false, IsCA := false }

/-- The certificate stored for an alias: the DER payload of the PEM block
in the certificate file, when it is one. -/
def storedCert (fs : Fs) (dir anAlias : String) : Option Certificate :=
  match (Fs.findFile fs (aliasToFile dir anAlias false)).map FsFile.data with
  | some (FileData.pemBlock _ (DerContent.certDer c)) => some c
  | _ => none

/-- Sample parent CA certificate used by concrete witness states. -/
def sampleParentCert : Certificate :=
  ⟨⟨[], [], [], [], [], [], [], "", "P"⟩, emptyName, 0, 10, true, 96, true, [], [], [], 1⟩

/-- Sample parent private key used by concrete witness states. -/
def sampleParentKey : RsaPrivateKey :=
  ⟨2048, 3⟩

/-- Sample directory holding the parent pair under alias p. -/
def sampleFs : Fs :=
  ⟨[(("d/p.pem"), ⟨FileData.pemBlock typeCert (DerContent.certDer sampleParentCert), 416⟩),
    (("d/p.key"), ⟨FileData.pemBlock typeRsaPrivateKey (DerContent.keyDer sampleParentKey), 256⟩)],
    [], []⟩

/-- Sample leaf request descriptor: alias srv, parent p, five years, one
DNS name, a decoy issuer field, and serial left at zero. -/
def sampleLeafData : CertData :=
  ⟨2048, 5, [], [("srv.example.com")], ("srv"), ("p"), false, false,
    ⟨[], [], [], [], [], [], [], "", "BOGUS"⟩,
    ⟨[], [], [], [], [], [], [], "", "I"⟩, 0⟩

/-- Sample root request descriptor: alias root, ten years, serial 7. -/
def sampleRootData : CertData :=
  ⟨2048, 10, [], [], ("root"), (""), false, false,
    ⟨[], [], [], [], [], [], [], "", "Root"⟩,
    ⟨[], [], [], [], [], [], [], "", "Root"⟩, 7⟩

/-- Sample root descriptor whose issuer field differs from its subject:
common name Root as subject, decoy common name BOGUS as issuer. -/
def sampleRootDecoyData : CertData :=
  ⟨2048, 10, [], [], ("root"), (""), false, false,
    ⟨[], [], [], [], [], [], [], "", "BOGUS"⟩,
    ⟨[], [], [], [], [], [], [], "", "Root"⟩, 7⟩

/-- A string of length zero is the empty string. -/
lemma string_eq_empty_of_length_zero {s : String} (h : s.length = 0) : s = ("") := by
  cases s with
  | mk data =>
    cases data with
    | nil => rfl
    | cons a l => simp [String.length] at h

/-- The certificate path and the private-key path of one alias differ. -/
lemma aliasToFile_false_ne_true (dir a : String) :
    aliasToFile dir a false ≠ aliasToFile dir a true := by
  unfold aliasToFile
  intro h
  have h2 : (dir ++ ("/") ++ a ++ (".")).data ++ ("pem").data
      = (dir ++ ("/") ++ a ++ (".")).data ++ ("key").data := by
    simpa [String.data_append] using congrArg String.data h
  exact absurd (List.append_cancel_left h2) (by decide)

/-- Looking up a path right after removing it finds nothing. -/
lemma findIn_removePath_self (l : List (String × FsFile)) (p : String) :
    findIn (removePath l p) p = none := by
  induction l with
  | nil => rfl
  | cons e rest ih =>
    by_cases h : e.1 = p
    · simpa [removePath, h] using ih
    · simp [removePath, h, findIn, ih]

/-- Removing one path leaves lookups of a different path unchanged. -/
lemma findIn_removePath_ne (l : List (String × FsFile)) {p q : String} (h : p ≠ q) :
    findIn (removePath l q) p = findIn l p := by
  induction l with
  | nil => rfl
  | cons e rest ih =>
    by_cases he : e.1 = q
    · simp [removePath, he, findIn, ih, Ne.symm h]
    · by_cases hp : e.1 = p
      · simp [removePath, he, findIn, hp, h]
      · simp [removePath, he, findIn, hp, ih]

/-- After save, the certificate file holds the certificate block with
permission 0o640. -/
lemma save_findFile_cert (dir : String) (fs : Fs) (cb kb : DerContent) (a : String) :
    (save dir fs cb kb a).findFile (aliasToFile dir a false)
      = some ⟨FileData.pemBlock typeCert cb, 0o640⟩ := by
  unfold save osWriteFile Fs.findFile
  have hne : aliasToFile dir a false ≠ aliasToFile dir a true :=
    aliasToFile_false_ne_true dir a
  simp only [findIn, if_neg (Ne.symm hne)]
  rw [findIn_removePath_ne _ hne]
  simp [findIn]

/-- After save, the private-key file holds the key block with
permission 0o400. -/
lemma save_findFile_key (dir : String) (fs : Fs) (cb kb : DerContent) (a : String) :
    (save dir fs cb kb a).findFile (aliasToFile dir a true)
      = some ⟨FileData.pemBlock typeRsaPrivateKey kb, 0o400⟩ := by
  unfold save osWriteFile Fs.findFile
  simp [findIn]

/-- The certificate recovered from storage after save. -/
lemma storedCert_save (dir : String) (fs : Fs) (c : Certificate) (kb : DerContent) (a : String) :
    storedCert (save dir fs (DerContent.certDer c) kb a) dir a = some c := by
  unfold storedCert
  rw [save_findFile_cert]
  rfl

/-- save keeps the unremovable set of the directory state. -/
lemma save_unremovable (dir : String) (fs : Fs) (cb kb : DerContent) (a : String) :
    (save dir fs cb kb a).unremovable = fs.unremovable := rfl

/-- Membership through the deduplicating fold of loUniq. -/
lemma mem_loUniq_foldl (l acc : List String) (x : String) :
    x ∈ l.foldl (fun acc y => if y ∈ acc then acc else acc ++ [y]) acc ↔ x ∈ acc ∨ x ∈ l := by
  induction l generalizing acc with
  | nil => simp
  | cons y rest ih =>
    by_cases hy : y ∈ acc
    · rw [List.foldl_cons]
      simp only [if_pos hy, ih]
      constructor
      · rintro (hx | hx)
        · exact Or.inl hx
        · exact Or.inr (List.mem_cons_of_mem y hx)
      · rintro (hx | hx)
        · exact Or.inl hx
        · rcases List.mem_cons.mp hx with hx | hx
          · exact Or.inl (hx ▸ hy)
          · exact Or.inr hx
    · rw [List.foldl_cons]
      simp only [if_neg hy, ih, List.mem_append, List.mem_singleton, List.mem_cons]
      tauto

/-- The deduplicating fold of loUniq keeps lists duplicate-free. -/
lemma nodup_loUniq_foldl (l acc : List String) (h : acc.Nodup) :
    (l.foldl (fun acc y => if y ∈ acc then acc else acc ++ [y]) acc).Nodup := by
  induction l generalizing acc with
  | nil => simpa
  | cons y rest ih =>
    rw [List.foldl_cons]
    by_cases hy : y ∈ acc
    · rw [if_pos hy]
      exact ih acc h
    · rw [if_neg hy]
      refine ih _ ?_
      refine List.Nodup.append h (List.nodup_singleton y) ?_
      simpa [List.disjoint_singleton] using hy

/-- Membership in loUniq is membership in the original list. -/
lemma mem_loUniq (l : List String) (x : String) : x ∈ loUniq l ↔ x ∈ l := by
  unfold loUniq
  rw [mem_loUniq_foldl]
  simp

/-- loUniq produces a duplicate-free list. -/
lemma nodup_loUniq (l : List String) : (loUniq l).Nodup :=
  nodup_loUniq_foldl l [] List.nodup_nil

/-- Both removals of Delete tolerate absence: when neither alias file is
unremovable, Delete succeeds, keeps the unremovable set, and leaves
neither alias file on disk. -/
lemma delete_ok (dir : String) (fs : Fs) (a : String)
    (hk : aliasToFile dir a true ∉ fs.unremovable)
    (hp : aliasToFile dir a false ∉ fs.unremovable) :
    (Delete dir fs a).1 = none ∧
    (Delete dir fs a).2.unremovable = fs.unremovable ∧
    findIn (Delete dir fs a).2.files (aliasToFile dir a true) = none ∧
    findIn (Delete dir fs a).2.files (aliasToFile dir a false) = none := by
  have hne := aliasToFile_false_ne_true dir a
  cases hfk : findIn fs.files (aliasToFile dir a true) with
  | none =>
    cases hfp : findIn fs.files (aliasToFile dir a false) with
    | none => simp [Delete, osRemove, fatalRemove, hk, hp, hfk, hfp]
    | some f =>
      simp [Delete, osRemove, fatalRemove, hk, hp, hfk, hfp,
        findIn_removePath_self, findIn_removePath_ne fs.files (Ne.symm hne)]
  | some f =>
    cases hfp : findIn (removePath fs.files (aliasToFile dir a true)) (aliasToFile dir a false) with
    | none =>
      simp [Delete, osRemove, fatalRemove, hk, hp, hfk, hfp, findIn_removePath_self]
    | some g =>
      simp [Delete, osRemove, fatalRemove, hk, hp, hfk, hfp, findIn_removePath_self,
        findIn_removePath_ne (removePath fs.files (aliasToFile dir a true)) (Ne.symm hne)]

/-- When validation passes, NewRootCA self-signs: the saved certificate
carries the descriptor subject also as its issuer (the encoder takes the
issuer from the parent, which is the new certificate itself), CA key
usage, no extended key usage and no SAN entries, and the serial
policy. -/
lemma newRootCA_ok (dir : String) (fs : Fs) (now : Int) (k : RsaPrivateKey) (cd : CertData)
    (hc : check cd [requireSubject, requireAlias, validAtLeastYears 1] = none) :
    NewRootCA dir fs now k cd =
      (Except.ok (),
        save dir fs
          (DerContent.certDer
            { subject := cd.Subject
              issuer := cd.Subject
              notBefore := now
              notAfter := now + cd.ValidYears
              isCA := true
              keyUsage := KeyUsageCertSign ||| KeyUsageCRLSign
              basicConstraintsValid := true
              extKeyUsage := []
              dnsNames := []
              ipAddresses := []
              serialNumber := if cd.Serial ≠ 0 then cd.Serial else 0 })
          (DerContent.keyDer k) cd.Alias) := by
  unfold NewRootCA
  rw [hc]
  rfl

/-- When validation reports an error, NewRootCA propagates it with the
directory unchanged. -/
lemma newRootCA_check_err (dir : String) (fs : Fs) (now : Int) (k : RsaPrivateKey)
    (cd : CertData) (e : CmError)
    (hc : check cd [requireSubject, requireAlias, validAtLeastYears 1] = some e) :
    NewRootCA dir fs now k cd = (Except.error e, fs) := by
  unfold NewRootCA
  rw [hc]

/-- When validation passes and the parent pair loads, NewIntermediateCA
saves a CA certificate whose issuer is the parent subject. -/
lemma newIntermediateCA_ok (dir : String) (fs : Fs) (now : Int) (k : RsaPrivateKey)
    (cd : CertData) (ch : PairHolder)
    (hc : check cd [requireSubject, requireAlias, requireParentAlias, validAtLeastYears 1] = none)
    (hl : load dir fs cd.ParentAlias = Except.ok ch) :
    NewIntermediateCA dir fs now k cd =
      (Except.ok (),
        save dir fs
          (DerContent.certDer
            { subject := cd.Subject
              issuer := ch.Cert.subject
              notBefore := now
              notAfter := now + cd.ValidYears
              isCA := true
              keyUsage := KeyUsageCertSign ||| KeyUsageCRLSign
              basicConstraintsValid := true
              extKeyUsage := []
              dnsNames := []
              ipAddresses := []
              serialNumber := if cd.Serial ≠ 0 then cd.Serial else 0 })
          (DerContent.keyDer k) cd.Alias) := by
  unfold NewIntermediateCA
  rw [hc]
  show create dir fs now k { cd with SelfSigned := false, IsCA := true } = _
  unfold create
  have hpa : CertData.ParentAlias { cd with SelfSigned := false, IsCA := true } = cd.ParentAlias := rfl
  rw [hpa, hl]
  rfl

/-- When validation passes but the parent pair fails to load,
NewIntermediateCA propagates the load error with the directory
unchanged. -/
lemma newIntermediateCA_load_err (dir : String) (fs : Fs) (now : Int) (k : RsaPrivateKey)
    (cd : CertData) (e : CmError)
    (hc : check cd [requireSubject, requireAlias, requireParentAlias, validAtLeastYears 1] = none)
    (hl : load dir fs cd.ParentAlias = Except.error e) :
    NewIntermediateCA dir fs now k cd = (Except.error e, fs) := by
  unfold NewIntermediateCA
  rw [hc]
  show create dir fs now k { cd with SelfSigned := false, IsCA := true } = _
  unfold create
  have hpa : CertData.ParentAlias { cd with SelfSigned := false, IsCA := true } = cd.ParentAlias := rfl
  rw [hpa, hl]
  rfl

/-- When validation reports an error, NewIntermediateCA propagates it with
the directory unchanged. -/
lemma newIntermediateCA_check_err (dir : String) (fs : Fs) (now : Int) (k : RsaPrivateKey)
    (cd : CertData) (e : CmError)
    (hc : check cd [requireSubject, requireAlias, requireParentAlias, validAtLeastYears 1] = some e) :
    NewIntermediateCA dir fs now k cd = (Except.error e, fs) := by
  unfold NewIntermediateCA
  rw [hc]

/-- When validation passes and the parent pair loads, NewLeaf saves a leaf
certificate whose issuer is the parent subject, with leaf key usage, both
extended key usages, and the SAN lists of the descriptor. -/
lemma newLeaf_ok (dir : String) (fs : Fs) (now : Int) (k : RsaPrivateKey)
    (cd : CertData) (ch : PairHolder)
    (hc : check cd [requireSubject, requireAlias, requireParentAlias, validAtLeastYears 1] = none)
    (hl : load dir fs cd.ParentAlias = Except.ok ch) :
    NewLeaf dir fs now k cd =
      (Except.ok (),
        save dir fs
          (DerContent.certDer
            { subject := cd.Subject
              issuer := ch.Cert.subject
              notBefore := now
              notAfter := now + cd.ValidYears
              isCA := false
              keyUsage := KeyUsageDataEncipherment ||| KeyUsageDigitalSignature
              basicConstraintsValid := true
              extKeyUsage := [ExtKeyUsage.clientAuth, ExtKeyUsage.serverAuth]
              dnsNames := cd.DNSSan
              ipAddresses := cd.IPSan
              serialNumber := if cd.Serial ≠ 0 then cd.Serial else 0 })
          (DerContent.keyDer k) cd.Alias) := by
  unfold NewLeaf
  rw [hc]
  show create dir fs now k { cd with SelfSigned := false, IsCA := false } = _
  unfold create
  have hpa : CertData.ParentAlias { cd with SelfSigned := false, IsCA := false } = cd.ParentAlias := rfl
  rw [hpa, hl]
  rfl

/-- When validation passes but the parent pair fails to load, NewLeaf
propagates the load error with the directory unchanged. -/
lemma newLeaf_load_err (dir : String) (fs : Fs) (now : Int) (k : RsaPrivateKey)
    (cd : CertData) (e : CmError)
    (hc : check cd [requireSubject, requireAlias, requireParentAlias, validAtLeastYears 1] = none)
    (hl : load dir fs cd.ParentAlias = Except.error e) :
    NewLeaf dir fs now k cd = (Except.error e, fs) := by
  unfold NewLeaf
  rw [hc]
  show create dir fs now k { cd with SelfSigned := false, IsCA := false } = _
  unfold create
  have hpa : CertData.ParentAlias { cd with SelfSigned := false, IsCA := false } = cd.ParentAlias := rfl
  rw [hpa, hl]
  rfl

/-- When validation reports an error, NewLeaf propagates it with the
directory unchanged. -/
lemma newLeaf_check_err (dir : String) (fs : Fs) (now : Int) (k : RsaPrivateKey)
    (cd : CertData) (e : CmError)
    (hc : check cd [requireSubject, requireAlias, requireParentAlias, validAtLeastYears 1] = some e) :
    NewLeaf dir fs now k cd = (Except.error e, fs) := by
  unfold NewLeaf
  rw [hc]

/-- C6: Delete(alias) succeeds whenever each of the two removals either
succeeds or fails only with a not-found condition, and deleting the same
alias again still succeeds; a removal of the key file that fails with an
error other than not-found is returned immediately with the directory
untouched; and when the key file removal went through but the certificate
file removal fails with an error other than not-found, that error is
returned even though the key file is already gone. -/
theorem c6_delete_idempotent (dir : String) (fs : Fs) (a : String) :
    ((aliasToFile dir a true ∉ fs.unremovable ∧ aliasToFile dir a false ∉ fs.unremovable) →
      (Delete dir fs a).1 = none ∧ (Delete dir (Delete dir fs a).2 a).1 = none)
  ∧ (aliasToFile dir a true ∈ fs.unremovable →
      Delete dir fs a = (some RemoveErr.permission, fs))
  ∧ ((aliasToFile dir a true ∉ fs.unremovable ∧ aliasToFile dir a false ∈ fs.unremovable) →
      (Delete dir fs a).1 = some RemoveErr.permission ∧
      findIn (Delete dir fs a).2.files (aliasToFile dir a true) = none) := by
  refine ⟨?_, ?_, ?_⟩
  · rintro ⟨hk, hp⟩
    obtain ⟨h1, hu, _, _⟩ := delete_ok dir fs a hk hp
    refine ⟨h1, ?_⟩
    have hk2 : aliasToFile dir a true ∉ (Delete dir fs a).2.unremovable := by
      rw [hu]
      exact hk
    have hp2 : aliasToFile dir a false ∉ (Delete dir fs a).2.unremovable := by
      rw [hu]
      exact hp
    exact (delete_ok dir (Delete dir fs a).2 a hk2 hp2).1
  · intro hk
    simp [Delete, osRemove, fatalRemove, hk]
  · rintro ⟨hk, hp⟩
    cases hfk : findIn fs.files (aliasToFile dir a true) with
    | none => simp [Delete, osRemove, fatalRemove, hk, hp, hfk]
    | some f => simp [Delete, osRemove, fatalRemove, hk, hp, hfk, findIn_removePath_self]

/-- Witness for C6 at concrete directory states: a double delete of an
existing alias succeeds twice, and a protected certificate file makes
Delete fail after the key file was removed. -/
theorem c6_delete_idempotent_witness :
    ((Delete ("d")
        ⟨[(("d/x.pem"), ⟨FileData.noPemBlock, 416⟩), (("d/x.key"), ⟨FileData.noPemBlock, 256⟩)],
          [], []⟩ ("x")).1 = none
      ∧ (Delete ("d")
          (Delete ("d")
            ⟨[(("d/x.pem"), ⟨FileData.noPemBlock, 416⟩), (("d/x.key"), ⟨FileData.noPemBlock, 256⟩)],
              [], []⟩ ("x")).2 ("x")).1 = none)
  ∧ ((Delete ("d")
        ⟨[(("d/x.key"), ⟨FileData.noPemBlock, 256⟩)], [("d/x.pem")], []⟩ ("x")).1
          = some RemoveErr.permission
      ∧ findIn (Delete ("d")
          ⟨[(("d/x.key"), ⟨FileData.noPemBlock, 256⟩)], [("d/x.pem")], []⟩ ("x")).2.files
          (aliasToFile ("d") ("x") true) = none) := by
  constructor
  · exact (c6_delete_idempotent ("d")
      ⟨[(("d/x.pem"), ⟨FileData.noPemBlock, 416⟩), (("d/x.key"), ⟨FileData.noPemBlock, 256⟩)],
        [], []⟩ ("x")).1 (by decide)
  · exact (c6_delete_idempotent ("d")
      ⟨[(("d/x.key"), ⟨FileData.noPemBlock, 256⟩)], [("d/x.pem")], []⟩ ("x")).2.2 (by decide)

/-- C7: an alias is listed exactly when some directory entry with the
certificate or key suffix strips to it, and the result carries no
duplicate, so an alias owning both files appears exactly once. -/
theorem c7_list_aliases (entries : List String) :
    (∀ a, a ∈ certList entries ↔
      ∃ f, f ∈ entries ∧ isAliasFilename f = true ∧ fileToAlias f = a)
  ∧ (certList entries).Nodup := by
  constructor
  · intro a
    unfold certList
    rw [mem_loUniq]
    simp only [List.mem_map, List.mem_filter]
    constructor
    · rintro ⟨f, ⟨hf, hal⟩, hfa⟩
      exact ⟨f, hf, hal, hfa⟩
    · rintro ⟨f, hf, hal, hfa⟩
      exact ⟨f, ⟨hf, hal⟩, hfa⟩
  · exact nodup_loUniq _

/-- C8: every save writes the certificate file with mode 0o640 and the
private-key file with mode 0o400, and mode 0o400 grants neither group nor
world read access. -/
theorem c8_save_permissions (dir : String) (fs : Fs) (cb kb : DerContent) (a : String) :
    ((save dir fs cb kb a).findFile (aliasToFile dir a false)).map FsFile.perm = some 0o640
  ∧ ((save dir fs cb kb a).findFile (aliasToFile dir a true)).map FsFile.perm = some 0o400
  ∧ 0o400 &&& 0o044 = 0 := by
  refine ⟨?_, ?_, by decide⟩
  · rw [save_findFile_cert]
    rfl
  · rw [save_findFile_key]
    rfl

/-- C9: the existence probe answers false exactly when the stat fails with
a true not-found condition; a successful stat and a stat failing with any
other error both collapse into the answer true. -/
theorem c9_exists_collapses_errors (dir : String) (fs : Fs) (a : String) (priv : Bool) :
    (doesAliasFileExist dir fs a priv = false ↔
      osStat fs (aliasToFile dir a priv) = some StatErr.notExist)
  ∧ (osStat fs (aliasToFile dir a priv) = none → doesAliasFileExist dir fs a priv = true)
  ∧ (osStat fs (aliasToFile dir a priv) = some StatErr.permission →
      doesAliasFileExist dir fs a priv = true) := by
  cases h : osStat fs (aliasToFile dir a priv) with
  | none => simp [doesAliasFileExist, h]
  | some e => cases e <;> simp [doesAliasFileExist, h, osIsNotExistStat]

/-- Witness for C9: a present file yields true, an absent one false, and a
path whose stat breaks with a non-not-found error yields true. -/
theorem c9_exists_collapses_errors_witness :
    doesAliasFileExist ("d") ⟨[(("d/x.pem"), ⟨FileData.noPemBlock, 416⟩)], [], []⟩ ("x") false = true
  ∧ doesAliasFileExist ("d") ⟨[], [], []⟩ ("x") false = false
  ∧ doesAliasFileExist ("d") ⟨[], [], [("d/x.pem")]⟩ ("x") false = true := by
  refine ⟨?_, ?_, ?_⟩
  · exact (c9_exists_collapses_errors ("d")
      ⟨[(("d/x.pem"), ⟨FileData.noPemBlock, 416⟩)], [], []⟩ ("x") false).2.1 (by decide)
  · exact (c9_exists_collapses_errors ("d") ⟨[], [], []⟩ ("x") false).1.mpr (by decide)
  · exact (c9_exists_collapses_errors ("d") ⟨[], [], [("d/x.pem")]⟩ ("x") false).2.2 (by decide)

/-- C10: the validation chain checks the subject before the alias in all
three issuance operations, so a descriptor whose subject renders empty and
whose alias is also empty gets the subject-missing error, which is not the
alias-missing error. -/
theorem c10_subject_before_alias (dir : String) (fs : Fs) (now : Int) (k : RsaPrivateKey)
    (cd : CertData)
    (hs : PkixName.render cd.Subject = (""))
    (_ha : cd.Alias = ("")) :
    NewRootCA dir fs now k cd = (Except.error CmError.subjectMissing, fs)
  ∧ NewIntermediateCA dir fs now k cd = (Except.error CmError.subjectMissing, fs)
  ∧ NewLeaf dir fs now k cd = (Except.error CmError.subjectMissing, fs)
  ∧ CmError.subjectMissing ≠ CmError.aliasMissing := by
  have hsub : requireSubject cd = some CmError.subjectMissing := by
    unfold requireSubject
    rw [hs]
    rfl
  refine ⟨?_, ?_, ?_, by decide⟩
  · exact newRootCA_check_err dir fs now k cd _ (by simp [check, hsub])
  · exact newIntermediateCA_check_err dir fs now k cd _ (by simp [check, hsub])
  · exact newLeaf_check_err dir fs now k cd _ (by simp [check, hsub])

/-- Witness for C10: the all-empty descriptor draws the subject-missing
error from every issuance operation. -/
theorem c10_subject_before_alias_witness :
    NewLeaf ("d") ⟨[], [], []⟩ 0 ⟨2048, 7⟩
        ⟨2048, 1, [], [], "", "p", false, false, emptyName, emptyName, 0⟩
      = (Except.error CmError.subjectMissing, ⟨[], [], []⟩)
  ∧ NewRootCA ("d") ⟨[], [], []⟩ 0 ⟨2048, 7⟩
        ⟨2048, 1, [], [], "", "p", false, false, emptyName, emptyName, 0⟩
      = (Except.error CmError.subjectMissing, ⟨[], [], []⟩) := by
  have h := c10_subject_before_alias ("d") ⟨[], [], []⟩ 0 ⟨2048, 7⟩
    ⟨2048, 1, [], [], "", "p", false, false, emptyName, emptyName, 0⟩ rfl rfl
  exact ⟨h.2.2.1, h.1⟩

/-- C3 (amended): for every descriptor whose subject renders non-empty and
whose alias is empty, NewLeaf stops at the missing-alias error of the
validation chain: the directory state is returned unchanged and the
result does not depend on the key-generation oracle, so no file write,
key generation or signing occurs. -/
theorem c3_leaf_empty_alias (dir : String) (fs : Fs) (now : Int) (k : RsaPrivateKey)
    (cd : CertData)
    (hs : PkixName.render cd.Subject ≠ (""))
    (ha : cd.Alias = ("")) :
    NewLeaf dir fs now k cd = (Except.error CmError.aliasMissing, fs) := by
  have hsub : requireSubject cd = none := by
    unfold requireSubject
    rw [if_neg]
    intro h
    exact hs (string_eq_empty_of_length_zero h)
  have hal : requireAlias cd = some CmError.aliasMissing := by
    unfold requireAlias
    rw [ha]
    rfl
  exact newLeaf_check_err dir fs now k cd _ (by simp [check, hsub, hal])

/-- Counterexample to C3 as stated: a descriptor with an empty alias whose
subject also renders empty makes NewLeaf return the subject-missing
error, not the alias-missing error. -/
theorem c3_leaf_empty_alias_counterexample :
    ¬ ((NewLeaf ("d") ⟨[], [], []⟩ 0 ⟨2048, 7⟩
        ⟨2048, 1, [], [], "", "p", false, false, emptyName, emptyName, 0⟩).1
        = Except.error CmError.aliasMissing) := by
  intro h
  have h0 : (NewLeaf ("d") ⟨[], [], []⟩ 0 ⟨2048, 7⟩
      ⟨2048, 1, [], [], "", "p", false, false, emptyName, emptyName, 0⟩).1
      = Except.error CmError.subjectMissing := rfl
  rw [h0] at h
  simp at h

/-- Witness for the amended C3: a descriptor with common name X and empty
alias is rejected with the missing-alias error and the empty directory is
unchanged. -/
theorem c3_leaf_empty_alias_witness :
    NewLeaf ("d") ⟨[], [], []⟩ 0 ⟨2048, 7⟩
        ⟨2048, 1, [], [], "", "p", false, false, emptyName,
          ⟨[], [], [], [], [], [], [], "", "X"⟩, 0⟩
      = (Except.error CmError.aliasMissing, ⟨[], [], []⟩) :=
  c3_leaf_empty_alias ("d") ⟨[], [], []⟩ 0 ⟨2048, 7⟩
    ⟨2048, 1, [], [], "", "p", false, false, emptyName,
      ⟨[], [], [], [], [], [], [], "", "X"⟩, 0⟩
    (by decide) rfl

/-- C1 (amended): for a chained issuance whose parent pair loads, the
saved certificate carries the parent subject as its issuer, whatever the
descriptor issuer field holds; the self-signed NewRootCA signs with the
new certificate as its own parent, so its stored issuer is the
descriptor subject and the descriptor issuer field is ignored as
well. -/
theorem c1_issuer_from_parent_subject (dir : String) (fs : Fs) (now : Int)
    (k : RsaPrivateKey) (cd : CertData) (ch : PairHolder) :
    (load dir fs cd.ParentAlias = Except.ok ch →
      (NewIntermediateCA dir fs now k cd).1 = Except.ok () →
      ((storedCert (NewIntermediateCA dir fs now k cd).2 dir cd.Alias).map Certificate.issuer)
        = some ch.Cert.subject)
  ∧ (load dir fs cd.ParentAlias = Except.ok ch →
      (NewLeaf dir fs now k cd).1 = Except.ok () →
      ((storedCert (NewLeaf dir fs now k cd).2 dir cd.Alias).map Certificate.issuer)
        = some ch.Cert.subject)
  ∧ ((NewRootCA dir fs now k cd).1 = Except.ok () →
      ((storedCert (NewRootCA dir fs now k cd).2 dir cd.Alias).map Certificate.issuer)
        = some cd.Subject) := by
  refine ⟨?_, ?_, ?_⟩
  · intro hl hok
    cases hc : check cd [requireSubject, requireAlias, requireParentAlias, validAtLeastYears 1] with
    | some e =>
      rw [newIntermediateCA_check_err dir fs now k cd e hc] at hok
      simp at hok
    | none =>
      rw [newIntermediateCA_ok dir fs now k cd ch hc hl]
      simp [storedCert_save]
  · intro hl hok
    cases hc : check cd [requireSubject, requireAlias, requireParentAlias, validAtLeastYears 1] with
    | some e =>
      rw [newLeaf_check_err dir fs now k cd e hc] at hok
      simp at hok
    | none =>
      rw [newLeaf_ok dir fs now k cd ch hc hl]
      simp [storedCert_save]
  · intro hok
    cases hc : check cd [requireSubject, requireAlias, validAtLeastYears 1] with
    | some e =>
      rw [newRootCA_check_err dir fs now k cd e hc] at hok
      simp at hok
    | none =>
      rw [newRootCA_ok dir fs now k cd hc]
      simp [storedCert_save]

/-- Witness for C1: issuing an intermediate under parent p stores a
certificate whose issuer is the parent subject, not the decoy issuer of
the descriptor; a root CA stores its own subject as issuer. -/
theorem c1_issuer_from_parent_subject_witness :
    ((storedCert (NewIntermediateCA ("d") sampleFs 0 ⟨2048, 7⟩ sampleLeafData).2 ("d")
        sampleLeafData.Alias).map Certificate.issuer) = some sampleParentCert.subject
  ∧ ((storedCert (NewRootCA ("d") ⟨[], [], []⟩ 0 ⟨2048, 7⟩ sampleRootData).2 ("d")
        sampleRootData.Alias).map Certificate.issuer) = some sampleRootData.Subject := by
  constructor
  · exact (c1_issuer_from_parent_subject ("d") sampleFs 0 ⟨2048, 7⟩ sampleLeafData
      ⟨sampleParentCert, sampleParentKey⟩).1 rfl rfl
  · exact (c1_issuer_from_parent_subject ("d") ⟨[], [], []⟩ 0 ⟨2048, 7⟩ sampleRootData
      ⟨sampleParentCert, sampleParentKey⟩).2.2 rfl

/-- C2: a successful issuance stores exactly the fixed usage policy: CA
certificates get key usage cert-sign plus crl-sign with no extended key
usage and no SAN lists; leaf certificates get key usage data-encipherment
plus digital-signature, extended key usage client-auth and server-auth,
and the SAN lists of the descriptor. -/
theorem c2_key_usage_policy (dir : String) (fs : Fs) (now : Int)
    (k : RsaPrivateKey) (cd : CertData) :
    ((NewRootCA dir fs now k cd).1 = Except.ok () →
      ((storedCert (NewRootCA dir fs now k cd).2 dir cd.Alias).map
          (fun c => (c.keyUsage, c.extKeyUsage, c.dnsNames, c.ipAddresses)))
        = some (KeyUsageCertSign ||| KeyUsageCRLSign, [], [], []))
  ∧ ((NewIntermediateCA dir fs now k cd).1 = Except.ok () →
      ((storedCert (NewIntermediateCA dir fs now k cd).2 dir cd.Alias).map
          (fun c => (c.keyUsage, c.extKeyUsage, c.dnsNames, c.ipAddresses)))
        = some (KeyUsageCertSign ||| KeyUsageCRLSign, [], [], []))
  ∧ ((NewLeaf dir fs now k cd).1 = Except.ok () →
      ((storedCert (NewLeaf dir fs now k cd).2 dir cd.Alias).map
          (fun c => (c.keyUsage, c.extKeyUsage, c.dnsNames, c.ipAddresses)))
        = some (KeyUsageDataEncipherment ||| KeyUsageDigitalSignature,
            [ExtKeyUsage.clientAuth, ExtKeyUsage.serverAuth], cd.DNSSan, cd.IPSan)) := by
  refine ⟨?_, ?_, ?_⟩
  · intro hok
    cases hc : check cd [requireSubject, requireAlias, validAtLeastYears 1] with
    | some e =>
      rw [newRootCA_check_err dir fs now k cd e hc] at hok
      simp at hok
    | none =>
      rw [newRootCA_ok dir fs now k cd hc]
      simp [storedCert_save]
  · intro hok
    cases hc : check cd [requireSubject, requireAlias, requireParentAlias, validAtLeastYears 1] with
    | some e =>
      rw [newIntermediateCA_check_err dir fs now k cd e hc] at hok
      simp at hok
    | none =>
      cases hl : load dir fs cd.ParentAlias with
      | error e =>
        rw [newIntermediateCA_load_err dir fs now k cd e hc hl] at hok
        simp at hok
      | ok ch =>
        rw [newIntermediateCA_ok dir fs now k cd ch hc hl]
        simp [storedCert_save]
  · intro hok
    cases hc : check cd [requireSubject, requireAlias, requireParentAlias, validAtLeastYears 1] with
    | some e =>
      rw [newLeaf_check_err dir fs now k cd e hc] at hok
      simp at hok
    | none =>
      cases hl : load dir fs cd.ParentAlias with
      | error e =>
        rw [newLeaf_load_err dir fs now k cd e hc hl] at hok
        simp at hok
      | ok ch =>
        rw [newLeaf_ok dir fs now k cd ch hc hl]
        simp [storedCert_save]

/-- Witness for C2: a concrete root CA stores the CA policy and a concrete
leaf under parent p stores the leaf policy with its DNS SAN. -/
theorem c2_key_usage_policy_witness :
    ((storedCert (NewRootCA ("d") ⟨[], [], []⟩ 0 ⟨2048, 7⟩ sampleRootData).2 ("d")
        sampleRootData.Alias).map
        (fun c => (c.keyUsage, c.extKeyUsage, c.dnsNames, c.ipAddresses)))
      = some (KeyUsageCertSign ||| KeyUsageCRLSign, [], [], [])
  ∧ ((storedCert (NewLeaf ("d") sampleFs 0 ⟨2048, 7⟩ sampleLeafData).2 ("d")
        sampleLeafData.Alias).map
        (fun c => (c.keyUsage, c.extKeyUsage, c.dnsNames, c.ipAddresses)))
      = some (KeyUsageDataEncipherment ||| KeyUsageDigitalSignature,
          [ExtKeyUsage.clientAuth, ExtKeyUsage.serverAuth],
          sampleLeafData.DNSSan, sampleLeafData.IPSan) := by
  constructor
  · exact (c2_key_usage_policy ("d") ⟨[], [], []⟩ 0 ⟨2048, 7⟩ sampleRootData).1 rfl
  · exact (c2_key_usage_policy ("d") sampleFs 0 ⟨2048, 7⟩ sampleLeafData).2.2 rfl

/-- C4: every successfully issued certificate carries the descriptor
serial when it is nonzero and the literal zero otherwise; the serial is a
function of the descriptor alone, never a random draw. -/
theorem c4_serial_policy (dir : String) (fs : Fs) (now : Int)
    (k : RsaPrivateKey) (cd : CertData) :
    ((NewRootCA dir fs now k cd).1 = Except.ok () →
      ((storedCert (NewRootCA dir fs now k cd).2 dir cd.Alias).map Certificate.serialNumber)
        = some (if cd.Serial ≠ 0 then cd.Serial else 0))
  ∧ ((NewIntermediateCA dir fs now k cd).1 = Except.ok () →
      ((storedCert (NewIntermediateCA dir fs now k cd).2 dir cd.Alias).map Certificate.serialNumber)
        = some (if cd.Serial ≠ 0 then cd.Serial else 0))
  ∧ ((NewLeaf dir fs now k cd).1 = Except.ok () →
      ((storedCert (NewLeaf dir fs now k cd).2 dir cd.Alias).map Certificate.serialNumber)
        = some (if cd.Serial ≠ 0 then cd.Serial else 0)) := by
  refine ⟨?_, ?_, ?_⟩
  · intro hok
    cases hc : check cd [requireSubject, requireAlias, validAtLeastYears 1] with
    | some e =>
      rw [newRootCA_check_err dir fs now k cd e hc] at hok
      simp at hok
    | none =>
      rw [newRootCA_ok dir fs now k cd hc]
      simp [storedCert_save]
  · intro hok
    cases hc : check cd [requireSubject, requireAlias, requireParentAlias, validAtLeastYears 1] with
    | some e =>
      rw [newIntermediateCA_check_err dir fs now k cd e hc] at hok
      simp at hok
    | none =>
      cases hl : load dir fs cd.ParentAlias with
      | error e =>
        rw [newIntermediateCA_load_err dir fs now k cd e hc hl] at hok
        simp at hok
      | ok ch =>
        rw [newIntermediateCA_ok dir fs now k cd ch hc hl]
        simp [storedCert_save]
  · intro hok
    cases hc : check cd [requireSubject, requireAlias, requireParentAlias, validAtLeastYears 1] with
    | some e =>
      rw [newLeaf_check_err dir fs now k cd e hc] at hok
      simp at hok
    | none =>
      cases hl : load dir fs cd.ParentAlias with
      | error e =>
        rw [newLeaf_load_err dir fs now k cd e hc hl] at hok
        simp at hok
      | ok ch =>
        rw [newLeaf_ok dir fs now k cd ch hc hl]
        simp [storedCert_save]

/-- Witness for C4: the sample root descriptor with serial 7 stores serial
7 and the sample leaf descriptor with serial 0 stores the literal zero. -/
theorem c4_serial_policy_witness :
    ((storedCert (NewRootCA ("d") ⟨[], [], []⟩ 0 ⟨2048, 7⟩ sampleRootData).2 ("d")
        sampleRootData.Alias).map Certificate.serialNumber) = some 7
  ∧ ((storedCert (NewLeaf ("d") sampleFs 0 ⟨2048, 7⟩ sampleLeafData).2 ("d")
        sampleLeafData.Alias).map Certificate.serialNumber) = some 0 := by
  constructor
  · exact (c4_serial_policy ("d") ⟨[], [], []⟩ 0 ⟨2048, 7⟩ sampleRootData).1 rfl
  · exact (c4_serial_policy ("d") sampleFs 0 ⟨2048, 7⟩ sampleLeafData).2.2 rfl

/-- C5: Get delegates to load, and load fails with the propagated
not-found error when either file is missing, with a format error when a
decoded block is absent or carries the wrong type label, with a parse
error when the DER payload is malformed, and returns the pair exactly
when every check passes. -/
theorem c5_load_checks (dir a : String) (fs : Fs) :
    (Get dir fs a = load dir fs a)
  ∧ (findIn fs.files (dir ++ ("/") ++ a ++ (".pem")) = none →
      load dir fs a = Except.error (CmError.fileNotFound (dir ++ ("/") ++ a ++ (".pem"))))
  ∧ (∀ p, findIn fs.files (dir ++ ("/") ++ a ++ (".pem")) = some ⟨FileData.noPemBlock, p⟩ →
      load dir fs a = Except.error (CmError.formatError
        (("cannot load CA certificate from ") ++ (dir ++ ("/") ++ a ++ (".pem")))))
  ∧ (∀ t d p, t ≠ typeCert →
      findIn fs.files (dir ++ ("/") ++ a ++ (".pem")) = some ⟨FileData.pemBlock t d, p⟩ →
      load dir fs a = Except.error (CmError.formatError
        (("cannot load CA certificate from ") ++ (dir ++ ("/") ++ a ++ (".pem")))))
  ∧ (∀ p, findIn fs.files (dir ++ ("/") ++ a ++ (".pem"))
        = some ⟨FileData.pemBlock typeCert DerContent.malformed, p⟩ →
      load dir fs a = Except.error CmError.parseCertError)
  ∧ (∀ c p, findIn fs.files (dir ++ ("/") ++ a ++ (".pem"))
        = some ⟨FileData.pemBlock typeCert (DerContent.certDer c), p⟩ →
      findIn fs.files (dir ++ ("/") ++ a ++ (".key")) = none →
      load dir fs a = Except.error (CmError.fileNotFound (dir ++ ("/") ++ a ++ (".key"))))
  ∧ (∀ c p q, findIn fs.files (dir ++ ("/") ++ a ++ (".pem"))
        = some ⟨FileData.pemBlock typeCert (DerContent.certDer c), p⟩ →
      findIn fs.files (dir ++ ("/") ++ a ++ (".key")) = some ⟨FileData.noPemBlock, q⟩ →
      load dir fs a = Except.error (CmError.formatError
        (("cannot load CA private key from ") ++ (dir ++ ("/") ++ a ++ (".key")))))
  ∧ (∀ c t d p q, t ≠ typeRsaPrivateKey →
      findIn fs.files (dir ++ ("/") ++ a ++ (".pem"))
        = some ⟨FileData.pemBlock typeCert (DerContent.certDer c), p⟩ →
      findIn fs.files (dir ++ ("/") ++ a ++ (".key")) = some ⟨FileData.pemBlock t d, q⟩ →
      load dir fs a = Except.error (CmError.formatError
        (("cannot load CA private key from ") ++ (dir ++ ("/") ++ a ++ (".key")))))
  ∧ (∀ c p q, findIn fs.files (dir ++ ("/") ++ a ++ (".pem"))
        = some ⟨FileData.pemBlock typeCert (DerContent.certDer c), p⟩ →
      findIn fs.files (dir ++ ("/") ++ a ++ (".key"))
        = some ⟨FileData.pemBlock typeRsaPrivateKey DerContent.malformed, q⟩ →
      load dir fs a = Except.error CmError.parseKeyError)
  ∧ (∀ c kk p q, findIn fs.files (dir ++ ("/") ++ a ++ (".pem"))
        = some ⟨FileData.pemBlock typeCert (DerContent.certDer c), p⟩ →
      findIn fs.files (dir ++ ("/") ++ a ++ (".key"))
        = some ⟨FileData.pemBlock typeRsaPrivateKey (DerContent.keyDer kk), q⟩ →
      load dir fs a = Except.ok ⟨c, kk⟩)
  ∧ (∀ ph, load dir fs a = Except.ok ph →
      ((findIn fs.files (dir ++ ("/") ++ a ++ (".pem"))).map FsFile.data
          = some (FileData.pemBlock typeCert (DerContent.certDer ph.Cert))
        ∧ (findIn fs.files (dir ++ ("/") ++ a ++ (".key"))).map FsFile.data
          = some (FileData.pemBlock typeRsaPrivateKey (DerContent.keyDer ph.Key)))) := by
  refine ⟨rfl, ?_, ?_, ?_, ?_, ?_, ?_, ?_, ?_, ?_, ?_⟩
  · intro hfp
    simp [load, osReadFile, hfp]
  · intro p hfp
    simp [load, osReadFile, hfp, pemDecode]
  · intro t d p ht hfp
    simp [load, osReadFile, hfp, pemDecode, ht]
  · intro p hfp
    simp [load, osReadFile, hfp, pemDecode, x509ParseCertificate]
  · intro c p hfp hfk
    simp [load, osReadFile, hfp, hfk, pemDecode, x509ParseCertificate]
  · intro c p q hfp hfk
    simp [load, osReadFile, hfp, hfk, pemDecode, x509ParseCertificate]
  · intro c t d p q ht hfp hfk
    simp [load, osReadFile, hfp, hfk, pemDecode, x509ParseCertificate, ht]
  · intro c p q hfp hfk
    simp [load, osReadFile, hfp, hfk, pemDecode, x509ParseCertificate, x509ParsePKCS1PrivateKey]
  · intro c kk p q hfp hfk
    simp [load, osReadFile, hfp, hfk, pemDecode, x509ParseCertificate, x509ParsePKCS1PrivateKey]
  · intro ph h
    simp only [load, osReadFile] at h
    cases hfp : findIn fs.files (dir ++ ("/") ++ a ++ (".pem")) with
    | none =>
      rw [hfp] at h
      simp at h
    | some f =>
      rw [hfp] at h
      cases f with
      | mk fdata fperm =>
        cases fdata with
        | noPemBlock => simp [pemDecode] at h
        | pemBlock t d =>
          by_cases ht : t = typeCert
          · subst ht
            cases d with
            | keyDer kk => simp [pemDecode, x509ParseCertificate] at h
            | malformed => simp [pemDecode, x509ParseCertificate] at h
            | certDer c =>
              cases hfk : findIn fs.files (dir ++ ("/") ++ a ++ (".key")) with
              | none =>
                rw [hfk] at h
                simp [pemDecode, x509ParseCertificate] at h
              | some g =>
                rw [hfk] at h
                cases g with
                | mk gdata gperm =>
                  cases gdata with
                  | noPemBlock => simp [pemDecode, x509ParseCertificate] at h
                  | pemBlock t2 d2 =>
                    by_cases ht2 : t2 = typeRsaPrivateKey
                    · subst ht2
                      cases d2 with
                      | certDer c2 =>
                        simp [pemDecode, x509ParseCertificate, x509ParsePKCS1PrivateKey] at h
                      | malformed =>
                        simp [pemDecode, x509ParseCertificate, x509ParsePKCS1PrivateKey] at h
                      | keyDer kk =>
                        simp only [pemDecode, x509ParseCertificate,
                          x509ParsePKCS1PrivateKey] at h
                        rw [if_neg (by simp), if_neg (by simp)] at h
                        injection h with h2
                        subst h2
                        exact ⟨rfl, rfl⟩
                    · simp [pemDecode, x509ParseCertificate, ht2] at h
          · simp [pemDecode, ht] at h

/-- Witness for C5: the sample parent pair loads, and loading from an
empty directory fails with the not-found error of the certificate path. -/
theorem c5_load_checks_witness :
    load ("d") sampleFs ("p") = Except.ok ⟨sampleParentCert, sampleParentKey⟩
  ∧ load ("d") ⟨[], [], []⟩ ("p")
      = Except.error (CmError.fileNotFound (("d") ++ ("/") ++ ("p") ++ (".pem"))) := by
  constructor
  · exact (c5_load_checks ("d") ("p") sampleFs).2.2.2.2.2.2.2.2.2.1
      sampleParentCert sampleParentKey 416 256 rfl rfl
  · exact (c5_load_checks ("d") ("p") ⟨[], [], []⟩).2.1 rfl

/-- Counterexample to C1 as stated: a self-signed root issued from a
descriptor whose issuer field differs from its subject stores its own
subject as issuer, so the descriptor issuer field is not used as
given. -/
theorem c1_issuer_from_parent_subject_counterexample :
    ((storedCert (NewRootCA ("d") ⟨[], [], []⟩ 0 ⟨2048, 7⟩ sampleRootDecoyData).2 ("d")
        ("root")).map Certificate.issuer) = some sampleRootDecoyData.Subject
  ∧ ¬ (((storedCert (NewRootCA ("d") ⟨[], [], []⟩ 0 ⟨2048, 7⟩ sampleRootDecoyData).2 ("d")
        ("root")).map Certificate.issuer) = some sampleRootDecoyData.Issuer) := by
  constructor
  · rfl
  · decide
